import Mathlib

/-!
Verification of the JSON key-value storage engine (`lightrag/kg/json_kv_impl.py`)
against its natural-language specification.

The store keeps, per namespace, a shared in-memory data region (a mapping from
string record ids to JSON records), a process-shared dirty flag, and an on-disk
snapshot file.  We embed the region as an association list with string keys and
JSON values, the dirty flag as a boolean, and the snapshot file content as a
second association list.  Disk writes that may fail are modelled by a boolean
`writeOk` parameter; a raised exception is an `Except.error`.
-/

/-- A JSON-compatible value, as stored in the region (`dict[str, Any]` values
coming from `json.load` in the source). -/
inductive JValue where
  | null : JValue
  | bool : Bool → JValue
  | num : Int → JValue
  | str : String → JValue
  | obj : List (String × JValue) → JValue

/-- Python truthiness of a JSON value (`if self._data.get(id, None)` in
`get_by_ids`): `None`, `False`, `0`, `""`, `{}` are falsy. -/
def truthy : JValue → Bool
  | JValue.null => false
  | JValue.bool b => b
  | JValue.num n => n != 0
  | JValue.str s => s != ""
  | JValue.obj l => !l.isEmpty

/-- Whether a value is Python `None` (`result is not None` in `delete`). -/
def isNull : JValue → Bool
  | JValue.null => true
  | _ => false

/-- First-match lookup in an association list: `d.get(k)` on a Python dict
(whose keys are unique, so first match is the match). -/
def lookupKV : List (String × JValue) → String → Option JValue
  | [], _ => none
  | p :: ps, k => if p.1 = k then some p.2 else lookupKV ps k

/-- `d[k] = v` on a Python dict: replace the binding in place if the key is
present, else append it. -/
def setKey (d : List (String × JValue)) (k : String) (v : JValue) :
    List (String × JValue) :=
  if d.any (fun p => p.1 = k) then
    d.map (fun p => if p.1 = k then (k, v) else p)
  else
    d ++ [(k, v)]

/-- `d.update(l)` on Python dicts: fold `setKey` over the entries of `l`. -/
def updateMany (d : List (String × JValue)) (l : List (String × JValue)) :
    List (String × JValue) :=
  l.foldl (fun acc p => setKey acc p.1 p.2) d

/-- Last-match lookup: the binding that survives when `l` is turned into a
Python dict (later entries win). -/
def lookupLast : List (String × JValue) → String → Option JValue
  | [], _ => none
  | p :: ps, k =>
    match lookupLast ps k with
    | some v => some v
    | none => if p.1 = k then some p.2 else none

theorem lookupKV_eq_none_iff (d : List (String × JValue)) (k : String) :
    lookupKV d k = none ↔ ∀ p ∈ d, p.1 ≠ k := by
  induction d with
  | nil => simp [lookupKV]
  | cons p ps ih =>
    by_cases h : p.1 = k <;> simp [lookupKV, h, ih]

theorem lookupKV_mem (d : List (String × JValue)) (k : String) (v : JValue)
    (h : lookupKV d k = some v) : (k, v) ∈ d := by
  induction d with
  | nil => simp [lookupKV] at h
  | cons p ps ih =>
    by_cases hk : p.1 = k
    · simp [lookupKV, hk] at h
      subst hk h
      simp
    · simp [lookupKV, hk] at h
      exact List.mem_cons_of_mem _ (ih h)

theorem lookupKV_append (d e : List (String × JValue)) (k : String) :
    lookupKV (d ++ e) k =
      match lookupKV d k with
      | some v => some v
      | none => lookupKV e k := by
  induction d with
  | nil => simp [lookupKV]
  | cons p ps ih =>
    by_cases h : p.1 = k <;> simp [lookupKV, h, ih]

theorem lookupKV_map_replace_self (d : List (String × JValue)) (k : String)
    (v : JValue) (h : d.any (fun p => p.1 = k) = true) :
    lookupKV (d.map (fun p => if p.1 = k then (k, v) else p)) k = some v := by
  induction d with
  | nil => simp at h
  | cons p ps ih =>
    by_cases hp : p.1 = k
    · simp [lookupKV, hp]
    · simp only [List.any_cons, decide_eq_true_eq, hp, decide_False,
        Bool.false_or] at h
      simp [lookupKV, hp, ih h]

theorem lookupKV_map_replace_ne (d : List (String × JValue)) (k k' : String)
    (v : JValue) (h : k' ≠ k) :
    lookupKV (d.map (fun p => if p.1 = k then (k, v) else p)) k' =
      lookupKV d k' := by
  induction d with
  | nil => simp [lookupKV]
  | cons p ps ih =>
    by_cases hp : p.1 = k
    · have h1 : ¬ (k = k') := fun hc => h hc.symm
      have h2 : ¬ (p.1 = k') := by rw [hp]; exact h1
      simp [lookupKV, hp, h1, h2, ih]
    · by_cases hk' : p.1 = k'
      · simp [lookupKV, hp, hk', h, ih]
      · simp [lookupKV, hp, hk', ih]

theorem lookupKV_setKey_self (d : List (String × JValue)) (k : String)
    (v : JValue) : lookupKV (setKey d k v) k = some v := by
  by_cases hany : d.any (fun p => p.1 = k)
  · simp only [setKey, hany, if_pos]
    exact lookupKV_map_replace_self d k v hany
  · simp only [setKey, hany, Bool.false_eq_true, if_false]
    rw [lookupKV_append]
    have hnone : lookupKV d k = none := by
      rw [lookupKV_eq_none_iff]
      intro p hp hc
      simp only [List.any_eq_true, decide_eq_true_eq] at hany
      exact hany ⟨p, hp, hc⟩
    simp [hnone, lookupKV]

theorem lookupKV_setKey_ne (d : List (String × JValue)) (k k' : String)
    (v : JValue) (h : k' ≠ k) : lookupKV (setKey d k v) k' = lookupKV d k' := by
  by_cases hany : d.any (fun p => p.1 = k)
  · simp only [setKey, hany, if_pos]
    exact lookupKV_map_replace_ne d k k' v h
  · simp only [setKey, hany, Bool.false_eq_true, if_false]
    rw [lookupKV_append]
    cases hc : lookupKV d k' with
    | some v' => rfl
    | none => simp [hc, lookupKV, Ne.symm h]

theorem lookupKV_updateMany (l d : List (String × JValue)) (k : String) :
    lookupKV (updateMany d l) k =
      match lookupLast l k with
      | some v => some v
      | none => lookupKV d k := by
  induction l generalizing d with
  | nil => simp [updateMany, lookupLast]
  | cons p ps ih =>
    show lookupKV (updateMany (setKey d p.1 p.2) ps) k = _
    rw [ih]
    cases hps : lookupLast ps k with
    | some v => simp [lookupLast, hps]
    | none =>
      by_cases hk : p.1 = k
      · subst hk
        simp [lookupLast, hps, lookupKV_setKey_self]
      · simp [lookupLast, hps, hk, lookupKV_setKey_ne d p.1 k p.2 (Ne.symm hk)]

/-- The mutable state a `JsonKVStorage` instance sees for its namespace:
the shared data region (`self._data`), the namespace's cross-process update
flag (`self.storage_updated.value`; "Modelled from the spec" §4.1: the
`shared_storage` module is not part of the given sources —
`set_all_update_flags(ns)` makes every process observe `true`,
`clear_all_update_flags(ns)` resets it to `false`), and the current content
of the namespace's snapshot file `kv_store_<ns>.json`. -/
structure KVState where
  data : List (String × JValue)
  dirty : Bool
  file : List (String × JValue)

/-- `initialize` (lines 34-61): when this store wins the init gate
(`try_initialize_namespace` returned `true`, modelled by `needInit`),
it loads the snapshot (`load_json(...) or {}`; a missing or corrupt file is
`none`, modelled from the spec for the missing `load_json`) and merges it
into the region with `self._data.update(loaded_data)`.  A loser of the gate
skips the load entirely.  The dirty flag and the file are untouched. -/
def initializeOp (needInit : Bool) (loaded : Option (List (String × JValue)))
    (st : KVState) : KVState :=
  if needInit then
    { st with data := updateMany st.data (loaded.getD []) }
  else
    st

/-- `index_done_callback` (lines 63-86), the checkpoint/flush hook.
`writeOk` models whether `write_json` succeeds; a failure is
`Except.error` (the Python exception propagating).  The second component is
the post-state, the third records whether a disk write was performed.
On success the flag is cleared only after the write; on failure the flag
stays set and the file is unchanged (the spec requires atomic writes). -/
def index_done_callback (writeOk : Bool) (st : KVState) :
    Except String Unit × KVState × Bool :=
  if st.dirty then
    if writeOk then
      (Except.ok (), { data := st.data, dirty := false, file := st.data }, true)
    else
      (Except.error "write_json failed", st, false)
  else
    (Except.ok (), st, false)

/-- `get_all` (lines 88-95): defensive copy of the whole region. -/
def get_all (st : KVState) : List (String × JValue) := st.data

/-- `get_by_id` (lines 97-99): `self._data.get(id)`. -/
def get_by_id (id : String) (st : KVState) : Option JValue :=
  lookupKV st.data id

/-- `get_by_ids` (lines 101-110): one output per input id, in order; an id
yields a copy of its record only when `self._data.get(id, None)` is truthy,
otherwise `None` — so an id bound to a falsy value (e.g. an empty record)
also yields `None`. -/
def get_by_ids (ids : List String) (st : KVState) : List (Option JValue) :=
  ids.map (fun id =>
    match lookupKV st.data id with
    | some v => if truthy v then some v else none
    | none => none)

/-- The set of record ids present in the region (`set(self._data.keys())`). -/
def regionKeys (st : KVState) : Finset String :=
  (st.data.map Prod.fst).toFinset

/-- `filter_keys` (lines 112-114): `set(keys) - set(self._data.keys())`. -/
def filter_keys (keys : Finset String) (st : KVState) : Finset String :=
  keys \ regionKeys st

/-- `upsert` (lines 116-127): empty input is a complete no-op (`if not data:
return`); otherwise `self._data.update(data)` then
`set_all_update_flags(ns)`. -/
def upsert (records : List (String × JValue)) (st : KVState) : KVState :=
  if records.isEmpty then
    st
  else
    { st with data := updateMany st.data records, dirty := true }

/-- One iteration of the loop in `delete` (lines 144-147):
`result = self._data.pop(doc_id, None)` removes the id when present;
`any_deleted` is set only when the popped value `is not None`. -/
def deleteStep (acc : List (String × JValue) × Bool) (i : String) :
    List (String × JValue) × Bool :=
  match lookupKV acc.1 i with
  | some v => (acc.1.filter (fun p => !(p.1 = i : Bool)), acc.2 || !(isNull v))
  | none => acc

/-- `delete` (lines 129-150): pop each id, then set the update flag only if
`any_deleted`. -/
def deleteOp (ids : List String) (st : KVState) : KVState :=
  let r := ids.foldl deleteStep (st.data, false)
  { st with data := r.1, dirty := st.dirty || r.2 }

/-- `drop_cache_by_modes` (lines 152-173): falsy `modes` (`None` or `[]`)
returns `False` untouched; otherwise `await self.delete(modes)` inside
`try/except` — `delFail = some (e, stF)` models `delete` raising exception
`e` leaving observable state `stF`, in which case `False` is returned
instead of the exception propagating. -/
def drop_cache_by_modes (modes : Option (List String))
    (delFail : Option (String × KVState)) (st : KVState) : Bool × KVState :=
  match modes with
  | none => (false, st)
  | some [] => (false, st)
  | some ms =>
    match delFail with
    | none => (true, deleteOp ms st)
    | some f => (false, f.2)

/-- `drop` (lines 222-246): clear the region, set the update flags, then
flush via `index_done_callback`; any exception is caught and reported as an
`"error"` outcome, a clean run returns the `"success"` outcome. -/
def drop (writeOk : Bool) (st : KVState) : (String × String) × KVState :=
  let st1 : KVState := { data := [], dirty := true, file := st.file }
  match index_done_callback writeOk st1 with
  | (Except.ok _, st2, _) => (("success", "data dropped"), st2)
  | (Except.error msg, st2, _) => (("error", msg), st2)

/-- Python's `str.endswith`: whether `suffix` is a suffix of `s` (stated on
the character lists so that it evaluates). -/
def endsWithStr (s suffix : String) : Bool :=
  suffix.data.isSuffixOf s.data

/-- The record count computed for logging in `initialize` (lines 47-57) and
`index_done_callback` (lines 70-80): for a namespace ending in `"cache"`,
the sum of `len(v)` over the dict-shaped values; otherwise `len(data)`. -/
def data_count (ns : String) (d : List (String × JValue)) : Nat :=
  if endsWithStr ns "cache" then
    (d.map (fun p =>
      match p.2 with
      | JValue.obj l => l.length
      | _ => 0)).sum
  else
    d.length

/-- The spec's phrasing of cache-namespace counting: the sum of the sizes of
the inner mappings. -/
def sumInnerSizes (d : List (String × JValue)) : Nat :=
  (d.filterMap (fun p =>
    match p.2 with
    | JValue.obj l => some l.length
    | _ => none)).sum

theorem mem_of_mem_filter_pair (d : List (String × JValue))
    (f : String × JValue → Bool) (p : String × JValue)
    (h : p ∈ d.filter f) : p ∈ d :=
  List.mem_of_mem_filter h

theorem deleteFold_data (ids : List String) (d : List (String × JValue))
    (b : Bool) :
    (ids.foldl deleteStep (d, b)).1 =
      d.filter (fun p => decide (p.1 ∉ ids)) := by
  induction ids generalizing d b with
  | nil => simp
  | cons i rest ih =>
    show (rest.foldl deleteStep (deleteStep (d, b) i)).1 = _
    cases hl : lookupKV d i with
    | some v =>
      simp only [deleteStep, hl]
      rw [ih]
      rw [List.filter_filter]
      apply List.filter_congr
      intro p _
      by_cases hpi : p.1 = i <;> simp [hpi, List.mem_cons]
    | none =>
      simp only [deleteStep, hl]
      rw [ih]
      apply List.filter_congr
      intro p hp
      have hne : p.1 ≠ i := (lookupKV_eq_none_iff d i).mp hl p hp
      simp [List.mem_cons, hne]

theorem deleteFold_flag (ids : List String) (d : List (String × JValue))
    (b : Bool) (h : ∀ p ∈ d, isNull p.2 = false) :
    (ids.foldl deleteStep (d, b)).2 =
      (b || ids.any (fun i => (lookupKV d i).isSome)) := by
  induction ids generalizing d b with
  | nil => simp
  | cons i rest ih =>
    show (rest.foldl deleteStep (deleteStep (d, b) i)).2 = _
    cases hl : lookupKV d i with
    | some v =>
      have hv : isNull v = false := h (i, v) (lookupKV_mem d i v hl)
      simp only [deleteStep, hl, hv, Bool.not_false, Bool.or_true]
      rw [ih _ _ (fun p hp => h p (mem_of_mem_filter_pair _ _ p hp))]
      simp [hl]
    | none =>
      simp only [deleteStep, hl]
      rw [ih _ _ h]
      simp [hl]

/-- Projection extracting the integer stored under a record's first field
when that field is numeric; used to tell two concrete records apart. -/
def vNum : JValue → Int
  | JValue.obj ((_, JValue.num n) :: _) => n
  | _ => 0

/-- Snapshot-file content holding `"x": {v:2}`. -/
def snap0 : List (String × JValue) := [("x", JValue.obj [("v", JValue.num 2)])]

/-- A region already holding `"x": {v:1}` before the disk load, with the
snapshot file holding `"x": {v:2}`. -/
def region0 : KVState :=
  { data := [("x", JValue.obj [("v", JValue.num 1)])]
    dirty := false
    file := snap0 }

/-- C1 (counterexample): with id `"x"` bound to `{v:1}` in the region and to
`{v:2}` in the snapshot file, the value of `"x"` after an init-claiming
`initialize()` differs from its pre-load in-region value — the merge
`self._data.update(loaded_data)` lets the disk overwrite memory, so the
claimed in-memory-wins precedence is false. -/
theorem c1_counterexample :
    lookupKV region0.data "x" = some (JValue.obj [("v", JValue.num 1)]) ∧
    lookupKV (initializeOp true (some snap0) region0).data "x" =
      some (JValue.obj [("v", JValue.num 2)]) ∧
    lookupKV (initializeOp true (some snap0) region0).data "x" ≠
      lookupKV region0.data "x" := by
  have e1 : lookupKV region0.data "x" =
      some (JValue.obj [("v", JValue.num 1)]) := rfl
  have e2 : lookupKV (initializeOp true (some snap0) region0).data "x" =
      some (JValue.obj [("v", JValue.num 2)]) := rfl
  refine ⟨e1, e2, ?_⟩
  intro hcontra
  rw [e1, e2] at hcontra
  have h2 := congrArg (Option.map vNum) hcontra
  simp only [Option.map_some'] at h2
  simp [vNum] at h2

/-- C1 (amended): when a store claims the init gate, the snapshot is merged
into the region with disk-wins precedence: an id present in the loaded
snapshot ends up with the snapshot's value (overwriting any in-region
value), an id absent from the snapshot keeps its in-region value, and a
non-claiming `initialize()` leaves the region untouched; the dirty flag and
the file are never changed by `initialize()`. -/
theorem c1_merge_disk_wins (needInit : Bool)
    (loaded : Option (List (String × JValue))) (st : KVState) (k : String) :
    initializeOp false loaded st = st ∧
    (initializeOp needInit loaded st).dirty = st.dirty ∧
    (initializeOp needInit loaded st).file = st.file ∧
    lookupKV (initializeOp true loaded st).data k =
      (match lookupLast (loaded.getD []) k with
       | some v => some v
       | none => lookupKV st.data k) := by
  refine ⟨rfl, ?_, ?_, ?_⟩
  · cases needInit <;> simp [initializeOp]
  · cases needInit <;> simp [initializeOp]
  · simp only [initializeOp, if_pos]
    exact lookupKV_updateMany (loaded.getD []) st.data k

/-- C2: a checkpoint on a clean namespace is a complete no-op (no disk
write, state unchanged); a checkpoint writes exactly when the dirty flag is
set, and the checkpoint following a successful checkpoint never writes. -/
theorem c2_checkpoint_coalesces (w : Bool) (st stA : KVState)
    (h : st.dirty = false) :
    index_done_callback w st = (Except.ok (), st, false) ∧
    (index_done_callback true stA).2.2 = stA.dirty ∧
    (index_done_callback true ((index_done_callback true stA).2.1)).2.2 =
      false := by
  refine ⟨?_, ?_, ?_⟩
  · simp [index_done_callback, h]
  · cases hd : stA.dirty <;> simp [index_done_callback, hd]
  · cases hd : stA.dirty <;> simp [index_done_callback, hd]

/-- C2 witness: a concrete clean store, checkpointed twice. -/
theorem c2_checkpoint_coalesces_witness :
    index_done_callback true
        { data := [("a", JValue.num 1)], dirty := false, file := [] } =
      (Except.ok (),
        { data := [("a", JValue.num 1)], dirty := false, file := [] },
        false) ∧
    (index_done_callback true
        ((index_done_callback true
            { data := [("b", JValue.num 2)], dirty := true,
              file := [] }).2.1)).2.2 = false := by
  refine ⟨?_, ?_⟩
  · exact (c2_checkpoint_coalesces true
      { data := [("a", JValue.num 1)], dirty := false, file := [] }
      { data := [], dirty := false, file := [] } rfl).1
  · exact (c2_checkpoint_coalesces true
      { data := [], dirty := false, file := [] }
      { data := [("b", JValue.num 2)], dirty := true, file := [] } rfl).2.2

/-- C3: a checkpoint on a dirty namespace whose disk write fails raises
(the error propagates to the caller) and leaves the state — in particular
the dirty flag — unchanged: the clear step is never reached. -/
theorem c3_failed_flush_keeps_dirty (st : KVState) (h : st.dirty = true) :
    (index_done_callback false st).1 = Except.error "write_json failed" ∧
    (index_done_callback false st).2.1 = st ∧
    (index_done_callback false st).2.1.dirty = true := by
  refine ⟨?_, ?_, ?_⟩ <;> simp [index_done_callback, h]

/-- C3 witness: a concrete dirty store with a failing write. -/
theorem c3_failed_flush_keeps_dirty_witness :
    (index_done_callback false
        { data := [("a", JValue.num 1)], dirty := true, file := [] }).1 =
      Except.error "write_json failed" ∧
    (index_done_callback false
        { data := [("a", JValue.num 1)], dirty := true, file := [] }).2.1.dirty
      = true := by
  refine ⟨?_, ?_⟩
  · exact (c3_failed_flush_keeps_dirty
      { data := [("a", JValue.num 1)], dirty := true, file := [] } rfl).1
  · exact (c3_failed_flush_keeps_dirty
      { data := [("a", JValue.num 1)], dirty := true, file := [] } rfl).2.2

/-- C4: `drop()` empties the region, marks it dirty and flushes before
returning: on success the outcome is `("success", "data dropped")` and the
snapshot file now holds the empty region with the dirty flag cleared; on an
internal write failure `drop()` still returns (it never raises), with an
`"error"` outcome carrying the failure message, the region empty and the
dirty flag still set. -/
theorem c4_drop_outcome (st : KVState) :
    drop true st =
      (("success", "data dropped"),
        { data := [], dirty := false, file := [] }) ∧
    (drop false st).1.1 = "error" ∧
    (drop false st).1.2 = "write_json failed" ∧
    (drop false st).2.data = [] ∧
    (drop false st).2.dirty = true := by
  refine ⟨?_, ?_, ?_, ?_, ?_⟩ <;> simp [drop, index_done_callback]

/-- A region holding records under ids `"a"` (a non-empty record) and `"b"`
(an empty record). -/
def regionAB : KVState :=
  { data := [("a", JValue.obj [("t", JValue.str "x")]), ("b", JValue.obj [])]
    dirty := false
    file := [] }

/-- C5: `delete(ids)` removes exactly the entries whose id is listed, keeps
every other entry (and the snapshot file) unchanged, and ends with the
dirty flag set iff it was already set or at least one listed id was present
in the region.  The hypothesis says no record is the JSON `null` value — the
spec's data model makes every record a mapping — so the `result is not None`
check in the source detects exactly the actual removals. -/
theorem c5_delete_exact (ids : List String) (st : KVState)
    (h : ∀ p ∈ st.data, isNull p.2 = false) :
    (deleteOp ids st).data =
      st.data.filter (fun p => decide (p.1 ∉ ids)) ∧
    (deleteOp ids st).dirty =
      (st.dirty || ids.any (fun i => (lookupKV st.data i).isSome)) ∧
    (deleteOp ids st).file = st.file := by
  refine ⟨deleteFold_data ids st.data false, ?_, rfl⟩
  have h2 := deleteFold_flag ids st.data false h
  rw [Bool.false_or] at h2
  show (st.dirty || (ids.foldl deleteStep (st.data, false)).2) =
    (st.dirty || ids.any (fun i => (lookupKV st.data i).isSome))
  rw [h2]

/-- C5 witness: deleting one present id and one absent id on a concrete
region. -/
theorem c5_delete_exact_witness :
    (deleteOp ["a", "zz"] regionAB).data =
      regionAB.data.filter (fun p => decide (p.1 ∉ ["a", "zz"])) ∧
    (deleteOp ["a", "zz"] regionAB).dirty =
      (regionAB.dirty ||
        (["a", "zz"].any (fun i => (lookupKV regionAB.data i).isSome))) := by
  have h := c5_delete_exact ["a", "zz"] regionAB (by decide)
  exact ⟨h.1, h.2.1⟩

/-- C6: `upsert({})` is a complete no-op (same region, dirty flag untouched);
a non-empty `upsert(records)` sets the dirty flag, leaves the file alone,
and afterwards every id maps to the last value supplied for it in
`records`, while ids not mentioned keep their previous binding. -/
theorem c6_upsert_lww (records : List (String × JValue)) (st : KVState)
    (k : String) (h : records ≠ []) :
    upsert [] st = st ∧
    (upsert records st).dirty = true ∧
    (upsert records st).file = st.file ∧
    lookupKV (upsert records st).data k =
      (match lookupLast records k with
       | some v => some v
       | none => lookupKV st.data k) := by
  have hne : records.isEmpty = false := by
    cases records with
    | nil => cases h rfl
    | cons a l => rfl
  refine ⟨rfl, ?_, ?_, ?_⟩
  · simp [upsert, hne]
  · simp [upsert, hne]
  · simp only [upsert, hne, Bool.false_eq_true, if_false]
    exact lookupKV_updateMany records st.data k

/-- C6 witness: upserting one record over a concrete region. -/
theorem c6_upsert_lww_witness :
    (upsert [("a", JValue.obj [("t", JValue.str "y")])] regionAB).dirty =
      true ∧
    lookupKV
        (upsert [("a", JValue.obj [("t", JValue.str "y")])] regionAB).data
        "a" =
      (match lookupLast [("a", JValue.obj [("t", JValue.str "y")])] "a" with
       | some v => some v
       | none => lookupKV regionAB.data "a") := by
  have h := c6_upsert_lww [("a", JValue.obj [("t", JValue.str "y")])]
    regionAB "a" (List.cons_ne_nil _ _)
  exact ⟨h.2.1, h.2.2.2⟩

/-- A region whose only record, under id `"a"`, is the empty record. -/
def regionE : KVState :=
  { data := [("a", JValue.obj [])], dirty := false, file := [] }

/-- C7 (counterexample): id `"a"` is present in the region (bound to the
empty record `{}`), yet `get_by_ids(["a"])` returns `[None]`, not the stored
record — the source tests the value for truthiness, not the id for
presence, so the claim fails for a present id with an empty record. -/
theorem c7_counterexample :
    lookupKV regionE.data "a" = some (JValue.obj []) ∧
    get_by_ids ["a"] regionE = [none] ∧
    get_by_ids ["a"] regionE ≠ [some (JValue.obj [])] := by
  have e : get_by_ids ["a"] regionE = [none] := rfl
  refine ⟨rfl, e, ?_⟩
  rw [e]
  intro hcontra
  injection hcontra with h1 _
  exact Option.noConfusion h1

/-- C7 (amended): `get_by_ids(ids)` returns one element per input id, in
input order; the element for an id is the stored record when the id is
present and its record is truthy (for records: non-empty), and `None` when
the id is absent or its stored value is falsy (e.g. the empty record). -/
theorem c7_get_by_ids_order (ids : List String) (st : KVState) (i : Nat) :
    (get_by_ids ids st).length = ids.length ∧
    (get_by_ids ids st)[i]? = (ids[i]?).map (fun id =>
      match lookupKV st.data id with
      | some v => if truthy v then some v else none
      | none => none) := by
  constructor
  · simp [get_by_ids]
  · simp [get_by_ids]

/-- A region containing only the id `"a"`. -/
def regionA : KVState :=
  { data := [("a", JValue.obj [("t", JValue.str "x")])]
    dirty := false
    file := [] }

/-- C8: `filter_keys(keys)` is the set difference of `keys` and the region's
ids: an id is returned iff it is in the input and not bound in the region;
in particular on a region containing only `"a"`, filtering `{"a","z"}`
returns exactly `{"z"}`. -/
theorem c8_filter_keys_diff (keys : Finset String) (st : KVState)
    (k : String) :
    (k ∈ filter_keys keys st ↔ k ∈ keys ∧ lookupKV st.data k = none) ∧
    filter_keys {"a", "z"} regionA = {"z"} := by
  constructor
  · rw [filter_keys, Finset.mem_sdiff, lookupKV_eq_none_iff]
    apply and_congr_right
    intro _
    rw [regionKeys, List.mem_toFinset, List.mem_map]
    push_neg
    rfl
  · decide

theorem sumInnerSizes_cons (a : String) (v : JValue)
    (ps : List (String × JValue)) :
    sumInnerSizes ((a, v) :: ps) =
      (match v with
       | JValue.obj l => l.length
       | _ => 0) + sumInnerSizes ps := by
  cases v <;> simp [sumInnerSizes, List.filterMap_cons]

theorem map_innerSize_sum_eq (d : List (String × JValue)) :
    (d.map (fun p =>
      match p.2 with
      | JValue.obj l => l.length
      | _ => 0)).sum = sumInnerSizes d := by
  induction d with
  | nil => rfl
  | cons p ps ih =>
    rcases p with ⟨a, v⟩
    rw [List.map_cons, List.sum_cons, ih, sumInnerSizes_cons]

/-- A cache-shaped structure: outer key `"mode1"` with two inner entries and
outer key `"mode2"` with none. -/
def cacheEx : List (String × JValue) :=
  [("mode1", JValue.obj [("k1", JValue.num 1), ("k2", JValue.num 2)]),
   ("mode2", JValue.obj [])]

/-- A cache-shaped structure where inner and outer counts differ: one outer
key with three inner entries. -/
def cacheEx2 : List (String × JValue) :=
  [("m1", JValue.obj
      [("k1", JValue.num 1), ("k2", JValue.num 2), ("k3", JValue.num 3)])]

/-- C9: the record count logged at load and at flush is the sum of the
inner-mapping sizes for a namespace whose name ends in `"cache"`, and the
number of top-level entries otherwise; on `{"mode1": {"k1":…, "k2":…},
"mode2": {}}` a cache namespace reports 2, and on a one-outer-key structure
with three inner entries a cache namespace reports 3 where a plain
namespace would report 1. -/
theorem c9_record_count (ns : String) (d : List (String × JValue)) :
    data_count ns d =
      (if endsWithStr ns "cache" then sumInnerSizes d else d.length) ∧
    data_count "llm_response_cache" cacheEx = 2 ∧
    data_count "full_docs" cacheEx = 2 ∧
    data_count "llm_response_cache" cacheEx2 = 3 ∧
    data_count "full_docs" cacheEx2 = 1 := by
  refine ⟨?_, by decide, by decide, by decide, by decide⟩
  by_cases hns : endsWithStr ns "cache" <;>
    simp [data_count, hns, map_innerSize_sum_eq]

/-- C10: `drop_cache_by_modes` on `None` or `[]` returns `False` leaving
region, dirty flag and file untouched; on a non-empty mode list with an
exception-free `delete` it returns `True` having removed exactly the listed
modes that were present and set the dirty flag iff one was present; and
when `delete` raises internally, it returns `False` rather than propagating
the exception.  As in C5, the hypothesis reflects the data model: stored
records are mappings, never JSON `null`. -/
theorem c10_drop_cache_modes (st stF : KVState) (e : String) (m : String)
    (ms : List String) (delFail : Option (String × KVState))
    (h : ∀ p ∈ st.data, isNull p.2 = false) :
    drop_cache_by_modes none delFail st = (false, st) ∧
    drop_cache_by_modes (some []) delFail st = (false, st) ∧
    drop_cache_by_modes (some (m :: ms)) none st =
      (true, deleteOp (m :: ms) st) ∧
    (deleteOp (m :: ms) st).data =
      st.data.filter (fun p => decide (p.1 ∉ (m :: ms))) ∧
    (deleteOp (m :: ms) st).dirty =
      (st.dirty || (m :: ms).any (fun i => (lookupKV st.data i).isSome)) ∧
    (drop_cache_by_modes (some (m :: ms)) (some (e, stF)) st).1 = false := by
  refine ⟨rfl, rfl, rfl, deleteFold_data (m :: ms) st.data false, ?_, rfl⟩
  have h2 := deleteFold_flag (m :: ms) st.data false h
  rw [Bool.false_or] at h2
  show (st.dirty || ((m :: ms).foldl deleteStep (st.data, false)).2) =
    (st.dirty || (m :: ms).any (fun i => (lookupKV st.data i).isSome))
  rw [h2]

/-- C10 witness: dropping the present mode `"a"` and the absent mode `"zz"`
on a concrete region, plus a concrete failing `delete`. -/
theorem c10_drop_cache_modes_witness :
    drop_cache_by_modes none none regionAB = (false, regionAB) ∧
    drop_cache_by_modes (some ["a", "zz"]) none regionAB =
      (true, deleteOp ["a", "zz"] regionAB) ∧
    (drop_cache_by_modes (some ["a", "zz"])
        (some ("disk error", regionE)) regionAB).1 = false := by
  have h := c10_drop_cache_modes regionAB regionE "disk error" "a" ["zz"]
    none (by decide)
  exact ⟨h.1, h.2.2.1, h.2.2.2.2.2⟩
